import Mathlib

/-!
Verification of the graphile/logger core (src/index.ts) via a shallow
embedding in Lean 4.

JavaScript objects are modelled as association lists of string keys to
JS-like values; property access is first-match lookup.  The object spread
`\x7b...a, ...b\x7d` used by `Logger.scope` is modelled by `spreadMerge`.
A value can be `vundef`, modelling a property that is present with the
value `undefined` (which spread copies, unlike an absent property).
-/

namespace GraphileLogger

/-- A JS-like runtime value: undefined, null, booleans, numbers, strings
and (nested) objects. -/
inductive Val where
  | vundef : Val
  | vnull : Val
  | vbool : Bool → Val
  | vnum : Int → Val
  | vstr : String → Val
  | vobj : List (String × Val) → Val
deriving Repr

/-- A JS object: association list from string keys to values.  A key that
maps to `Val.vundef` is present with value `undefined`; an absent key has
no entry. -/
abbrev JSObj := List (String × Val)

/-- Property access `o[k]`: first matching entry, `none` when absent. -/
def jlookup : JSObj → String → Option Val
  | [], _ => none
  | (k', v) :: rest, k => if k' = k then some v else jlookup rest k

/-- The JS object spread `\x7b...a, ...b\x7d`: every own key of `b` overrides
the same key of `a`; keys of `a` not present in `b` are carried over.
(Entry order differs from the JS insertion order, but property lookup
agrees, see `jlookup_spreadMerge`.) -/
def spreadMerge (a b : JSObj) : JSObj :=
  a.filter (fun p => (jlookup b p.1).isNone) ++ b

theorem jlookup_append (a b : JSObj) (k : String) :
    jlookup (a ++ b) k =
      match jlookup a k with
      | some v => some v
      | none => jlookup b k := by
  induction a with
  | nil => simp [jlookup]
  | cons p rest ih =>
      obtain ⟨k', v⟩ := p
      by_cases hk : k' = k
      · simp [jlookup, hk]
      · simp [jlookup, hk, ih]

theorem jlookup_filter_absent (a b : JSObj) (k : String) :
    jlookup (a.filter (fun p => (jlookup b p.1).isNone)) k =
      if (jlookup b k).isNone then jlookup a k else none := by
  induction a with
  | nil => simp [jlookup]
  | cons p rest ih =>
      obtain ⟨k', v⟩ := p
      by_cases hk : k' = k
      · subst hk
        by_cases hb : (jlookup b k').isNone
        · simp [List.filter_cons, jlookup, hb]
        · simp [List.filter_cons, jlookup, hb, ih]
      · by_cases hb : (jlookup b k').isNone
        · simp [List.filter_cons, jlookup, hb, hk, ih]
        · simp [List.filter_cons, jlookup, hb, hk, ih]

/-- Key lookup in a spread merge: `b` wins on conflict, `a`'s other keys
are carried over. -/
theorem jlookup_spreadMerge (a b : JSObj) (k : String) :
    jlookup (spreadMerge a b) k =
      match jlookup b k with
      | some v => some v
      | none => jlookup a k := by
  unfold spreadMerge
  rw [jlookup_append, jlookup_filter_absent]
  cases hb : jlookup b k with
  | none =>
      simp [hb]
      cases jlookup a k <;> rfl
  | some v =>
      simp [hb]

/-- The log level, a closed enumeration (source: `const enum LogLevel`). -/
inductive LogLevel where
  | ERROR : LogLevel
  | WARNING : LogLevel
  | INFO : LogLevel
  | DEBUG : LogLevel
deriving DecidableEq, Repr

/-- The string value of each `LogLevel` member of the TypeScript
`const enum` (`ERROR = "error"`, `WARNING = "warning"`, `INFO = "info"`,
`DEBUG = "debug"`). -/
def LogLevel.value : LogLevel → String
  | .ERROR => "error"
  | .WARNING => "warning"
  | .INFO => "info"
  | .DEBUG => "debug"

/-- `LogMeta`: optional metadata for one log call, an open string-keyed
mapping. -/
abbrev LogMeta := JSObj

/-- The `LogFunction` shape `(level, message, meta?) => ...`.  The TS
return type is `void`; the embedding is generic over the result type `ρ`
so that "returns whatever the log function returns" is expressible. -/
abbrev LogFunction (ρ : Type) := LogLevel → String → Option LogMeta → ρ

/-- One invocation of a bound log function, recorded as data: the level,
message and optional metadata it was passed. -/
structure LogCall where
  level : LogLevel
  message : String
  meta : Option LogMeta
deriving Repr

/-- Instrumented call of a bound log function: returns the trace of
invocations this call performs (exactly the one recorded event) together
with the function's result.  Every syntactic `this.log(...)` call site of
the source is translated through this wrapper, so the first component
counts invocations. -/
def callLog (f : LogFunction ρ) (level : LogLevel) (message : String)
    (meta : Option LogMeta) : List LogCall × ρ :=
  ([⟨level, message, meta⟩], f level message meta)

/-- Instrumented call of a `LogFunctionFactory`: the trace records the
scope argument of each factory invocation.  Every syntactic
`logFactory(...)` call site of the source is translated through this
wrapper. -/
def callFactory (f : JSObj → LogFunction ρ) (s : JSObj) :
    List JSObj × LogFunction ρ :=
  ([s], f s)

/-- The `Logger` class state: its private `_scope`, its private
`_logFactory`, and the bound `log` function produced at construction. -/
structure Logger (ρ : Type) where
  _scope : JSObj
  _logFactory : JSObj → LogFunction ρ
  log : LogFunction ρ

/-- The `Logger` constructor: stores the scope and the factory, and binds
`this.log = logFactory(scope)`.  The first component is the trace of
factory invocations the construction performs. -/
def Logger.construct (logFactory : JSObj → LogFunction ρ) (scope : JSObj) :
    List JSObj × Logger ρ :=
  let p := callFactory logFactory scope
  (p.1, { _scope := scope, _logFactory := logFactory, log := p.2 })

/-- Construction with the `scope` argument omitted: the TS parameter
default `scope: Partial<TLogScope> = \x7b\x7d` supplies the empty object. -/
def Logger.constructDefault (logFactory : JSObj → LogFunction ρ) :
    List JSObj × Logger ρ :=
  Logger.construct logFactory []

/-- `Logger.scope(additionalScope)`: builds a new `Logger` from the shared
`_logFactory` and the spread merge `\x7b...this._scope, ...additionalScope\x7d`.
The first component is the trace of factory invocations performed. -/
def Logger.scope (lg : Logger ρ) (additionalScope : JSObj) :
    List JSObj × Logger ρ :=
  Logger.construct lg._logFactory (spreadMerge lg._scope additionalScope)

/-- `Logger.getCurrentScope()`: `return this._scope;`. -/
def Logger.getCurrentScope (lg : Logger ρ) : JSObj :=
  lg._scope

/-- `Logger.error(message, meta?)`: `return this.log(LogLevel.ERROR,
message, meta);`, instrumented with the trace of log-function calls. -/
def Logger.error (lg : Logger ρ) (message : String) (meta : Option LogMeta) :
    List LogCall × ρ :=
  callLog lg.log LogLevel.ERROR message meta

/-- `Logger.warn(message, meta?)`: `return this.log(LogLevel.WARNING,
message, meta);`. -/
def Logger.warn (lg : Logger ρ) (message : String) (meta : Option LogMeta) :
    List LogCall × ρ :=
  callLog lg.log LogLevel.WARNING message meta

/-- `Logger.info(message, meta?)`: `return this.log(LogLevel.INFO,
message, meta);`. -/
def Logger.info (lg : Logger ρ) (message : String) (meta : Option LogMeta) :
    List LogCall × ρ :=
  callLog lg.log LogLevel.INFO message meta

/-- `Logger.debug(message, meta?)`: `return this.log(LogLevel.DEBUG,
message, meta);`. -/
def Logger.debug (lg : Logger ρ) (message : String) (meta : Option LogMeta) :
    List LogCall × ρ :=
  callLog lg.log LogLevel.DEBUG message meta

/-- A `console` method name.  `console.debug` exists as a channel distinct
(in name) from `console.log`; the source deliberately selects `log`, not
`debug`, for DEBUG-level messages. -/
inductive ConsoleMethod where
  | error : ConsoleMethod
  | warn : ConsoleMethod
  | info : ConsoleMethod
  | log : ConsoleMethod
  | debug : ConsoleMethod
deriving DecidableEq, Repr

/-- One write performed by the console backend:
`console[method](format, ...params)`, recorded as data. -/
structure ConsoleCall where
  method : ConsoleMethod
  format : String
  params : List Val
deriving Repr

/-- `ConsoleLogConfig`: a format string and a `formatParameters`
function extracting the ordered parameter list fed into the format. -/
structure ConsoleLogConfig where
  format : String
  formatParameters : LogLevel → String → JSObj → List Val

/-- The default `ConsoleLogConfig` (the parameter default of
`makeConsoleLogFactory`): format `"%s: %s (%O)"` with parameters
`[level.toUpperCase(), message, scope]`. -/
def defaultConsoleLogConfig : ConsoleLogConfig where
  format := "%s: %s (%O)"
  formatParameters := fun level message scope =>
    [Val.vstr (LogLevel.value level).toUpper, Val.vstr message, Val.vobj scope]

/-- JS truthiness of `process.env.GRAPHILE_LOGGER_DEBUG`: an unset
variable (`none`) is falsy, and a set variable is truthy exactly when its
string value is non-empty (the empty string is falsy in JS). -/
def envTruthy : Option String → Bool
  | none => false
  | some s => !(s == "")

/-- `makeConsoleLogFactory(\x7bformat, formatParameters\x7d)` applied to a
scope: the produced log function.  `env` is the value of
`process.env.GRAPHILE_LOGGER_DEBUG` at call time.  The source's inner
function takes only `(level, message)`; in JS the `meta` argument a
caller passes is simply ignored, modelled here by the unused `_meta`
parameter.  A result of `none` models the early `return` (no output);
`some c` models the write `console[method](format, ...params)`. -/
def makeConsoleLogFactory (env : Option String) (cfg : ConsoleLogConfig)
    (scope : JSObj) (level : LogLevel) (message : String)
    (_meta : Option LogMeta) : Option ConsoleCall :=
  if level = LogLevel.DEBUG ∧ envTruthy env = false then
    none
  else
    let method : ConsoleMethod :=
      match level with
      | LogLevel.ERROR => ConsoleMethod.error
      | LogLevel.WARNING => ConsoleMethod.warn
      | LogLevel.INFO => ConsoleMethod.info
      | _ => ConsoleMethod.log
    some { method := method, format := cfg.format,
           params := cfg.formatParameters level message scope }

/-!
Reference-level model.  In JavaScript objects are heap references:
`this._scope` stores a reference, `return this._scope` returns that same
reference, and `\x7b...this._scope, ...additionalScope\x7d` allocates a fresh
object.  The claims about aliasing and non-mutation need this level, so
the `Logger` state and its operations are restated over an explicit heap
of objects addressed by natural-number references.
-/

/-- A heap of JS objects: `mem r` is the object at reference `r`; every
reference below `next` is allocated, `next` is the next fresh one. -/
structure Heap where
  mem : Nat → JSObj
  next : Nat

/-- In-place mutation of the object at reference `r` (what a caller does
when it assigns to a property of an object it holds a reference to). -/
def Heap.set (h : Heap) (r : Nat) (o : JSObj) : Heap where
  mem := fun r' => if r' = r then o else h.mem r'
  next := h.next

/-- Allocation of a fresh object holding `o`. -/
def Heap.alloc (h : Heap) (o : JSObj) : Nat × Heap :=
  (h.next, { mem := fun r' => if r' = h.next then o else h.mem r'
             next := h.next + 1 })

/-- The `Logger` state at the reference level: `_scope` is a reference
into the heap, not a copy of the object. -/
structure LoggerH (ρ : Type) where
  scopeRef : Nat
  logFactory : JSObj → LogFunction ρ
  log : LogFunction ρ

/-- The constructor at the reference level: the caller passes a reference
to the scope object, which is stored as-is; the factory is invoked on the
object's current contents. -/
def LoggerH.construct (logFactory : JSObj → LogFunction ρ) (h : Heap)
    (scopeRef : Nat) : LoggerH ρ :=
  { scopeRef := scopeRef, logFactory := logFactory,
    log := logFactory (h.mem scopeRef) }

/-- `getCurrentScope()` at the reference level: `return this._scope;`
hands back the stored reference itself, not a copy. -/
def LoggerH.getCurrentScope (lg : LoggerH ρ) : Nat :=
  lg.scopeRef

/-- `scope(additionalScope)` at the reference level: the spread
`\x7b...this._scope, ...additionalScope\x7d` allocates a fresh object holding
the merged contents, and a new `Logger` is constructed over it.  Returns
the child logger and the updated heap. -/
def LoggerH.scopeH (lg : LoggerH ρ) (h : Heap) (addRef : Nat) :
    LoggerH ρ × Heap :=
  let merged := spreadMerge (h.mem lg.scopeRef) (h.mem addRef)
  let p := h.alloc merged
  (LoggerH.construct lg.logFactory p.2 p.1, p.2)

/-- Evaluation form of `String.toUpper`: it maps `Char.toUpper` over the
characters.  (`String.toUpper` itself does not reduce definitionally on
literals; this form does.) -/
theorem toUpper_eval (s : String) : s.toUpper = ⟨s.data.map Char.toUpper⟩ := by
  simp [String.toUpper, String.map_eq]

/-- Claim C1: for every root logger and scopes `A`, `B`,
`logger.scope(A).scope(B).getCurrentScope()` is, key by key, the shallow
left-to-right merge of the root scope, `A`, then `B`: on a conflicting
key `B` wins over `A` and both win over the root; keys not mentioned in
the overlay carry over; an overlay value (object values included, since
`Val.vobj` is looked up whole) replaces the parent value entirely. -/
theorem scope_chain_is_left_to_right_shallow_merge {ρ : Type} (lg : Logger ρ)
    (A B : JSObj) (k : String) :
    jlookup (Logger.getCurrentScope (Logger.scope (Logger.scope lg A).2 B).2) k =
      match jlookup B k with
      | some v => some v
      | none =>
        match jlookup A k with
        | some v => some v
        | none => jlookup (Logger.getCurrentScope lg) k := by
  show jlookup (spreadMerge (spreadMerge lg._scope A) B) k = _
  rw [jlookup_spreadMerge, jlookup_spreadMerge]
  rfl

/-- Claim C3: the constructor invokes the factory exactly once (the
factory-call trace is the one-element list of the given scope), stores
its result as the bound log function, stores the scope and factory, and
an omitted scope argument defaults to the empty object. -/
theorem constructor_invokes_factory_once {ρ : Type}
    (f : JSObj → LogFunction ρ) (s : JSObj) :
    (Logger.construct f s).1 = [s] ∧
    (Logger.construct f s).2.log = f s ∧
    (Logger.construct f s).2._scope = s ∧
    (Logger.construct f s).2._logFactory = f ∧
    Logger.constructDefault f = Logger.construct f [] :=
  ⟨rfl, rfl, rfl, rfl, rfl⟩

/-- Claim C4: each of `error`, `warn`, `info`, `debug` invokes the bound
log function exactly once (singleton call trace) with the corresponding
level constant, the given message, and the given metadata, and returns
the log function's result; the string value of the `WARNING` level is
`"warning"`, not `"warn"`. -/
theorem level_methods_pass_through {ρ : Type} (lg : Logger ρ)
    (message : String) (meta : Option LogMeta) :
    lg.error message meta =
      ([⟨LogLevel.ERROR, message, meta⟩], lg.log LogLevel.ERROR message meta) ∧
    lg.warn message meta =
      ([⟨LogLevel.WARNING, message, meta⟩], lg.log LogLevel.WARNING message meta) ∧
    lg.info message meta =
      ([⟨LogLevel.INFO, message, meta⟩], lg.log LogLevel.INFO message meta) ∧
    lg.debug message meta =
      ([⟨LogLevel.DEBUG, message, meta⟩], lg.log LogLevel.DEBUG message meta) ∧
    LogLevel.value LogLevel.ERROR = "error" ∧
    LogLevel.value LogLevel.WARNING = "warning" ∧
    LogLevel.value LogLevel.WARNING ≠ "warn" ∧
    LogLevel.value LogLevel.INFO = "info" ∧
    LogLevel.value LogLevel.DEBUG = "debug" :=
  ⟨rfl, rfl, rfl, rfl, rfl, rfl, by decide, rfl, rfl⟩

/-- Claim C9: `scope(...)` shares the parent's factory reference with the
child, and the child's bound log function is obtained by re-invoking that
stored factory with the merged scope (the factory-call trace of the
`scope` call is exactly one invocation, at the merged scope); the child's
`log` is that fresh result, not the parent's bound function. -/
theorem scope_reinvokes_shared_factory {ρ : Type} (lg : Logger ρ) (a : JSObj) :
    (lg.scope a).1 = [spreadMerge lg._scope a] ∧
    (lg.scope a).2._logFactory = lg._logFactory ∧
    (lg.scope a).2.log = lg._logFactory (spreadMerge lg._scope a) :=
  ⟨rfl, rfl, rfl⟩

/-- Claim C10: a key present in the additional scope with the value
`undefined` still overrides the parent's value under spread semantics:
the merged scope maps that key to `undefined`. -/
theorem undefined_key_still_overrides {ρ : Type} (lg : Logger ρ) (a : JSObj)
    (k : String) (hk : jlookup a k = some Val.vundef) :
    jlookup (Logger.getCurrentScope (lg.scope a).2) k = some Val.vundef := by
  show jlookup (spreadMerge lg._scope a) k = some Val.vundef
  rw [jlookup_spreadMerge, hk]

/-- A concrete logger over the trivial log result type, with an existing
binding for key `k`. -/
def lgP : Logger Unit :=
  (Logger.construct (fun _ _ _ _ => ()) [(("k"), Val.vstr ("old"))]).2

/-- Witness for C10: overlaying `\x7bk: undefined\x7d` on a scope where `k` is
`"old"` yields a scope whose `k` is `undefined`. -/
theorem undefined_key_still_overrides_witness :
    jlookup [(("k"), Val.vundef)] ("k") = some Val.vundef ∧
    jlookup (Logger.getCurrentScope (lgP.scope [(("k"), Val.vundef)]).2) ("k") =
      some Val.vundef :=
  ⟨rfl, undefined_key_still_overrides lgP [(("k"), Val.vundef)] ("k") rfl⟩

/-- A trivial log function factory over the unit result type. -/
def factW : JSObj → LogFunction Unit := fun _ _ _ _ => ()

/-- A concrete heap: every allocated object is empty, references 0 and 1
are allocated. -/
def hW : Heap := { mem := fun _ => [], next := 2 }

/-- A concrete logger at the reference level, constructed over the scope
object at reference 0 of `hW`. -/
def lgW : LoggerH Unit := LoggerH.construct factW hW 0

/-- Counterexample to C2: `getCurrentScope()` returns the internal scope
reference itself (`return this._scope`), so mutating the returned object
— here, setting key `"x"` on the object at the returned reference —
changes the contents of the Logger's internal scope: the claim that such
a mutation does not affect internal state is false. -/
theorem getCurrentScope_mutation_visible :
    (hW.set (LoggerH.getCurrentScope lgW) [(("x"), Val.vnum 1)]).mem lgW.scopeRef ≠
      hW.mem lgW.scopeRef := by
  simp [Heap.set, LoggerH.getCurrentScope, lgW, hW, LoggerH.construct]

/-- Amended C2: `getCurrentScope()` returns the Logger's internal scope
object by reference — an alias, not a defensive copy or immutable view —
so a mutation performed through the returned reference is visible in the
Logger's internal state. -/
theorem getCurrentScope_returns_alias {ρ : Type} (lg : LoggerH ρ) (h : Heap)
    (o : JSObj) :
    LoggerH.getCurrentScope lg = lg.scopeRef ∧
    (h.set (LoggerH.getCurrentScope lg) o).mem lg.scopeRef = o :=
  ⟨rfl, by simp [Heap.set, LoggerH.getCurrentScope]⟩

/-- Claim C5: `scope(...)` does not alter the parent.  In a heap where
the parent's scope reference is allocated, after `lg.scopeH h addRef` the
object at the parent's `getCurrentScope()` reference is unchanged, the
child's scope reference is a fresh one distinct from the parent's, the
child is a new `Logger` value (sharing only the factory), and no
previously allocated object is modified. -/
theorem scope_does_not_mutate_parent {ρ : Type} (lg : LoggerH ρ) (h : Heap)
    (addRef : Nat) (hlt : lg.scopeRef < h.next) :
    (lg.scopeH h addRef).2.mem (LoggerH.getCurrentScope lg) =
      h.mem (LoggerH.getCurrentScope lg) ∧
    (lg.scopeH h addRef).1.scopeRef ≠ lg.scopeRef ∧
    (lg.scopeH h addRef).1.logFactory = lg.logFactory ∧
    (∀ r, r < h.next → (lg.scopeH h addRef).2.mem r = h.mem r) := by
  have hne : lg.scopeRef ≠ h.next := Nat.ne_of_lt hlt
  refine ⟨?_, ?_, rfl, ?_⟩
  · simp [LoggerH.scopeH, Heap.alloc, LoggerH.construct, LoggerH.getCurrentScope,
      hne]
  · show h.next ≠ lg.scopeRef
    exact fun hc => hne hc.symm
  · intro r hr
    have hr' : r ≠ h.next := Nat.ne_of_lt hr
    simp [LoggerH.scopeH, Heap.alloc, LoggerH.construct, hr']

/-- Witness for C5 at the concrete logger `lgW` in the heap `hW`. -/
theorem scope_does_not_mutate_parent_witness :
    (lgW.scopeH hW 1).2.mem (LoggerH.getCurrentScope lgW) =
      hW.mem (LoggerH.getCurrentScope lgW) ∧
    (lgW.scopeH hW 1).1.scopeRef ≠ lgW.scopeRef :=
  ⟨(scope_does_not_mutate_parent lgW hW 1 (by decide)).1,
   (scope_does_not_mutate_parent lgW hW 1 (by decide)).2.1⟩

/-- Counterexample to C6: `GRAPHILE_LOGGER_DEBUG` set to the empty string
is "set" (present), yet a DEBUG-level call is still discarded, because
the source tests JS truthiness (`!process.env.GRAPHILE_LOGGER_DEBUG`) and
the empty string is falsy; so "presence of any value enables it" is
false. -/
theorem debug_dropped_with_empty_env :
    (some ("") : Option String).isSome = true ∧
    makeConsoleLogFactory (some ("")) defaultConsoleLogConfig []
      LogLevel.DEBUG ("m") none = none := by
  constructor
  · rfl
  · rfl

/-- Amended C6: a DEBUG-level call is discarded exactly when the
debug-flag environment variable is falsy — unset, or set to the empty
string — and forwarded when it is set to any non-empty value; ERROR-,
WARNING- and INFO-level calls are always forwarded regardless of the
variable. -/
theorem debug_gated_by_env_truthiness (cfg : ConsoleLogConfig)
    (env : Option String) (scope : JSObj) (message : String)
    (meta : Option LogMeta) :
    (makeConsoleLogFactory env cfg scope LogLevel.ERROR message meta).isSome = true ∧
    (makeConsoleLogFactory env cfg scope LogLevel.WARNING message meta).isSome = true ∧
    (makeConsoleLogFactory env cfg scope LogLevel.INFO message meta).isSome = true ∧
    ((makeConsoleLogFactory env cfg scope LogLevel.DEBUG message meta).isSome = true ↔
      envTruthy env = true) ∧
    envTruthy none = false ∧
    (∀ s : String, envTruthy (some s) = true ↔ s ≠ ("")) := by
  refine ⟨?_, ?_, ?_, ?_, rfl, ?_⟩
  · simp [makeConsoleLogFactory]
  · simp [makeConsoleLogFactory]
  · simp [makeConsoleLogFactory]
  · cases he : envTruthy env <;> simp [makeConsoleLogFactory, he]
  · intro s
    simp [envTruthy]

/-- Claim C7: every forwarded write goes to the channel selected solely
by its level: ERROR to `console.error`, WARNING to `console.warn`, INFO
to `console.info`, and DEBUG (when forwarded at all) to the generic
`console.log` — which is a different method name from the dedicated
`console.debug` channel. -/
theorem channel_selected_by_level (cfg : ConsoleLogConfig)
    (env : Option String) (scope : JSObj) (message : String)
    (meta : Option LogMeta) :
    Option.map ConsoleCall.method
        (makeConsoleLogFactory env cfg scope LogLevel.ERROR message meta) =
      some ConsoleMethod.error ∧
    Option.map ConsoleCall.method
        (makeConsoleLogFactory env cfg scope LogLevel.WARNING message meta) =
      some ConsoleMethod.warn ∧
    Option.map ConsoleCall.method
        (makeConsoleLogFactory env cfg scope LogLevel.INFO message meta) =
      some ConsoleMethod.info ∧
    Option.map ConsoleCall.method
        (makeConsoleLogFactory env cfg scope LogLevel.DEBUG message meta) =
      (if envTruthy env = true then some ConsoleMethod.log else none) ∧
    ConsoleMethod.log ≠ ConsoleMethod.debug := by
  refine ⟨?_, ?_, ?_, ?_, by decide⟩
  · simp [makeConsoleLogFactory]
  · simp [makeConsoleLogFactory]
  · simp [makeConsoleLogFactory]
  · cases he : envTruthy env <;> simp [makeConsoleLogFactory, he]

/-- Claim C8: with the default configuration, a forwarded INFO call with
message `"Hello world!"` and scope `\x7b\x7d` is the write
`console.info("%s: %s (%O)", "INFO", "Hello world!", \x7b\x7d)`; in general the
default parameter list is `[uppercased level value, message, scope]`, and
the per-call metadata argument is never forwarded into the format call
(the produced write is independent of it). -/
theorem default_format_info_hello (env : Option String) (meta : Option LogMeta) :
    makeConsoleLogFactory env defaultConsoleLogConfig [] LogLevel.INFO
        ("Hello world!") meta =
      some { method := ConsoleMethod.info, format := "%s: %s (%O)",
             params := [Val.vstr ("INFO"), Val.vstr ("Hello world!"),
                        Val.vobj []] } ∧
    (∀ (level : LogLevel) (message : String) (sc : JSObj),
      defaultConsoleLogConfig.formatParameters level message sc =
        [Val.vstr (LogLevel.value level).toUpper, Val.vstr message,
         Val.vobj sc]) ∧
    (∀ (cfg : ConsoleLogConfig) (sc : JSObj) (level : LogLevel)
        (message : String) (m1 m2 : Option LogMeta),
      makeConsoleLogFactory env cfg sc level message m1 =
        makeConsoleLogFactory env cfg sc level message m2) := by
  refine ⟨?_, fun _ _ _ => rfl, fun _ _ _ _ _ _ => rfl⟩
  simp [makeConsoleLogFactory, defaultConsoleLogConfig, toUpper_eval]
  rfl

end GraphileLogger
